import Mathlib

/-!
  # MapItOut — verification of the tree store, layout engines and keyboard hook

  Shallow embedding of the "simplified" MapItOut core:
  * the tree store (`createNode`, `updateNode`, `selectNode`) from the simplified
    Zustand store;
  * the Delete/Backspace handler `deleteNodeAndChildren` and the arrow-key
    navigation helpers from the simplified keyboard hook;
  * the two layout engines `CenterLayout` / `TopLayout` from the FinalPush plan
    (their helper methods `findRootNode`, `buildDepthMap`, `calculateTextWidth`
    are absent from the sources and are modelled from the spec);
  * the sanitizer `sanitizeNodeText` from `validation.ts` and the two
    commit-edit paths of the node components.

  JavaScript `Map` objects are embedded as insertion-ordered association lists
  (`jsGet` / `jsSet` / `jsDelete` mirror `get` / `set` / `delete`): JS maps
  iterate in insertion order and `set` on an existing key keeps its position.
  Node objects are shared mutable references in JS; map copies (`new Map(m)`)
  share them, which matters for the delete handler and is modelled explicitly
  there.  `nanoid()` and `Date.now()` are nondeterministic inputs and are
  passed as explicit arguments.
-/

namespace MapItOut

/-- The `metadata` record of a node in the simplified types: creation timestamp, last
modified timestamp, collapsed flag. -/
structure Metadata where
  created : Nat
  modified : Nat
  collapsed : Bool
deriving Repr, DecidableEq

/-- The simplified `Node` interface: structure only, no stored coordinates. -/
structure Node where
  id : String
  text : String
  children : List String
  parent : Option String
  metadata : Metadata
deriving Repr, DecidableEq

/-- A JS `Map<string, β>` as an insertion-ordered association list. -/
abbrev JsMap (β : Type) := List (String × β)

/-- JS `Map.prototype.get`: first entry with the given key (keys are unique in
a real JS map, so "first" is exact). -/
def jsGet {β : Type} : JsMap β → String → Option β
  | [], _ => none
  | (k', v) :: rest, k => if k' = k then some v else jsGet rest k

/-- JS `Map.prototype.set`: overwrite in place if the key exists (keeping its
insertion position), otherwise append at the end. -/
def jsSet {β : Type} : JsMap β → String → β → JsMap β
  | [], k, v => [(k, v)]
  | (k', v') :: rest, k, v =>
      if k' = k then (k', v) :: rest else (k', v') :: jsSet rest k v

/-- JS `Map.prototype.delete`: remove the entry with the given key. -/
def jsDelete {β : Type} : JsMap β → String → JsMap β
  | [], _ => []
  | (k', v') :: rest, k =>
      if k' = k then rest else (k', v') :: jsDelete rest k

/-- The node collection: `Map<string, Node>`. -/
abbrev NodeMap := JsMap Node

/-- The two layout modes of the simplified app. -/
inductive LayoutType
  | center
  | top
deriving Repr, DecidableEq

/-- The simplified `MapState`: node collection, selection, layout mode. -/
structure MapState where
  nodes : NodeMap
  selectedId : Option String
  layoutType : LayoutType
deriving Repr, DecidableEq

/-- The store's initial state: `nodes: new Map(), selectedId: null,
layoutType: center`. -/
def initialState : MapState :=
  { nodes := [], selectedId := none, layoutType := LayoutType.center }

/-- The store action `createNode(parentId, text = "New Node")` from the simplified store.
`nanoid()` and `Date.now()` are passed as `newId` and `now`.  The new node's
`parent` is `parentId || null` (empty string is falsy); the parent's children
array is updated only `if (parentId)` is truthy and the parent exists; the new
node is always inserted and always becomes the selection. -/
def createNode (newId : String) (now : Nat) (parentId : String)
    (text : String := "New Node") (s : MapState) : MapState :=
  let newNode : Node :=
    { id := newId
      text := text
      children := []
      parent := if parentId = "" then none else some parentId
      metadata := { created := now, modified := now, collapsed := false } }
  let newNodes := jsSet s.nodes newId newNode
  let newNodes :=
    if parentId = "" then newNodes
    else
      match jsGet newNodes parentId with
      | none => newNodes
      | some parent =>
          jsSet newNodes parentId
            { parent with
              children := parent.children ++ [newId]
              metadata := { parent.metadata with modified := now } }
  { s with nodes := newNodes, selectedId := some newId }

/-- The fields of `Partial<Node>` that a caller may pass to `updateNode`.
Absent fields are `none` (JS: the property is not present on the object). -/
structure NodeUpdates where
  id : Option String := none
  text : Option String := none
  children : Option (List String) := none
  parent : Option (Option String) := none
  metadata : Option Metadata := none
deriving Repr, DecidableEq

/-- The store action `updateNode(id, updates)` from the simplified store: destructures `id`,
`children` and `parent` out of `updates`, `Object.assign`s the rest onto the
node, then sets `metadata.modified = Date.now()` (passed as `now`).  A missing
id leaves the state unchanged. -/
def updateNode (id : String) (updates : NodeUpdates) (now : Nat)
    (s : MapState) : MapState :=
  match jsGet s.nodes id with
  | none => s
  | some node =>
      let assigned : Node :=
        { node with
          text := updates.text.getD node.text
          metadata := updates.metadata.getD node.metadata }
      let updated : Node :=
        { assigned with metadata := { assigned.metadata with modified := now } }
      { s with nodes := jsSet s.nodes id updated }

/-- The store action `selectNode(id)` from the simplified store, `set({ selectedId: id })`,
with no existence check whatsoever. -/
def selectNode (id : Option String) (s : MapState) : MapState :=
  { s with selectedId := id }

/-- The store action `setLayoutType(type)` from the simplified store. -/
def setLayoutType (t : LayoutType) (s : MapState) : MapState :=
  { s with layoutType := t }

/-!
  ## The Delete/Backspace handler of the simplified keyboard hook

  `deleteNodeAndChildren` closes over the `nodes` map captured at render time.
  Each recursive call re-reads that same captured map, mutates the shared node
  objects (`parent.children = parent.children.filter(...)`), then calls
  `setState` with `new Map(nodes)` minus just its own id.  Since every
  `setState` copy starts from the same captured key set, only the **last**
  `setState` survives: the one of the outermost call, which removes only the
  outermost id.  The captured map's keys never change, while its node objects
  are shared by all copies, so the object mutations are modelled on a single
  evolving map and the final store state erases only the outermost id.
-/

/-- The children-array mutations performed by the recursive walk of
`deleteNodeAndChildren`: visit the node, recurse into the children list read
at entry, then remove this id from its parent's `children` array.  `fuel`
bounds the recursion depth (the JS code would not terminate on cyclic data). -/
def deleteMutate : Nat → String → NodeMap → NodeMap
  | 0, _, h => h
  | fuel + 1, nodeId, h =>
      match jsGet h nodeId with
      | none => h
      | some node =>
          let h1 := node.children.foldl (fun acc c => deleteMutate fuel c acc) h
          match node.parent with
          | none => h1
          | some p =>
              match jsGet h1 p with
              | none => h1
              | some parent =>
                  jsSet h1 p
                    { parent with
                      children := parent.children.filter (fun cid => cid ≠ nodeId) }

/-- Net effect of invoking `deleteNodeAndChildren(nodeId)` from the keyboard
hook: if the node is absent nothing happens (no `setState` fires); otherwise
the final `setState` is the outermost one, which installs the captured map
(with all accumulated children-array mutations) minus only `nodeId`, and sets
`selectedId: null`. -/
def deleteNodeAndChildren (nodeId : String) (s : MapState) : MapState :=
  match jsGet s.nodes nodeId with
  | none => s
  | some _ =>
      { s with
        nodes := jsDelete (deleteMutate s.nodes.length nodeId s.nodes) nodeId
        selectedId := none }

/-!
  ## Arrow-key navigation from the simplified keyboard hook

  JS truthiness matters: `if (!selectedId) return` and `if (targetId)
  selectNode(targetId)` treat the empty string as falsy, and
  `Array.prototype.indexOf` returns `-1` when the element is missing.
-/

/-- JS truthiness of a `string | null | undefined` value. -/
def isTruthy : Option String → Bool
  | none => false
  | some s => s ≠ ""

/-- JS `Array.prototype.indexOf`: index of the first occurrence, `-1` if absent. -/
def jsIndexOf : List String → String → Int
  | [], _ => -1
  | a :: rest, x =>
      if a = x then 0
      else
        let r := jsIndexOf rest x
        if r = -1 then -1 else r + 1

/-- JS array indexing `l[i]`: `undefined` (here `none`) when out of range. -/
def jsAt (l : List String) (i : Int) : Option String :=
  if i < 0 then none else l.get? i.toNat

/-- Helper `findNodeAbove`: the previous sibling in the parent's `children` order, or
`null` when there is none (no fallback to the parent). -/
def findNodeAbove (nodes : NodeMap) (node : Node) : Option String :=
  match node.parent with
  | none => none
  | some pid =>
      match jsGet nodes pid with
      | none => none
      | some parent =>
          let siblings := parent.children
          let currentIndex := jsIndexOf siblings node.id
          if currentIndex > 0 then jsAt siblings (currentIndex - 1) else none

/-- Helper `findNodeBelow`: the next sibling in the parent's `children` order, or
`null` when there is none. -/
def findNodeBelow (nodes : NodeMap) (node : Node) : Option String :=
  match node.parent with
  | none => none
  | some pid =>
      match jsGet nodes pid with
      | none => none
      | some parent =>
          let siblings := parent.children
          let currentIndex := jsIndexOf siblings node.id
          if currentIndex < (siblings.length : Int) - 1 then
            jsAt siblings (currentIndex + 1)
          else none

/-- Helper `findNodeLeft`: just the parent id. -/
def findNodeLeft (node : Node) : Option String :=
  node.parent

/-- Helper `findNodeRight`: the first child if any exist. -/
def findNodeRight (node : Node) : Option String :=
  node.children.head?

/-- Handler `navigateToAdjacentNode(direction)` from the simplified keyboard hook. -/
def navigateToAdjacentNode (direction : String) (s : MapState) : MapState :=
  if isTruthy s.selectedId then
    match s.selectedId with
    | none => s
    | some sid =>
        match jsGet s.nodes sid with
        | none => s
        | some selectedNode =>
            let targetId : Option String :=
              if direction = "ArrowUp" then findNodeAbove s.nodes selectedNode
              else if direction = "ArrowDown" then findNodeBelow s.nodes selectedNode
              else if direction = "ArrowLeft" then findNodeLeft selectedNode
              else if direction = "ArrowRight" then findNodeRight selectedNode
              else none
            if isTruthy targetId then selectNode targetId s else s
  else s

/-- The Tab branch of `handleKeyDown`: create a child of the selection, or the
root node when nothing is selected and the tree is empty. -/
def handleTabKey (newId : String) (now : Nat) (s : MapState) : MapState :=
  if isTruthy s.selectedId then
    match s.selectedId with
    | none => s
    | some sid => createNode newId now sid "New Node" s
  else if s.nodes.length = 0 then createNode newId now "" "Root Node" s
  else s

/-!
  ## Layout engines (FinalPush plan, simplified architecture)

  `CenterLayout.calculatePositions` / `positionTier` and
  `TopLayout.calculatePositions` / `positionTier` are embedded from the code
  blocks of the FinalPush plan.  Their helper methods (`findRootNode`,
  `buildDepthMap`, `calculateTextWidth`) do not appear anywhere in the
  sources and are modelled from the spec.  All JS numbers that arise here are
  small integers and exact halves, so rationals model the float arithmetic
  exactly.
-/

/-- A derived `Position`: layout-computed center coordinates plus size. -/
structure Position where
  x : ℚ
  y : ℚ
  width : ℚ
  height : ℚ
deriving Repr, DecidableEq

/-- A JS `Map<string, Position>`. -/
abbrev PositionMap := JsMap Position

/-- Modelled from the spec: `calculateTextWidth` is missing from the sources;
the spec's shared sizing rule is `width = max(MIN_WIDTH, k * text.length)`
with `MIN_WIDTH ≈ 100` and `k ≈ 8` (height is the fixed 40 of the code).
`Math.max` is written as the conditional picking the larger operand (the
comparison happens on the natural number `8 * length`). -/
def calculateTextWidth (text : String) : ℚ :=
  if 8 * text.length ≤ 100 then 100 else 8 * (text.length : ℚ)

/-- Modelled from the spec: `findRootNode` is missing from the sources; the
spec says "Locate the root (node with no parent).  If none exists, return an
empty map" — the first node in map iteration order whose `parent` is null. -/
def findRootNode (nodes : NodeMap) : Option Node :=
  (nodes.find? (fun kv => kv.2.parent.isNone)).map (fun kv => kv.2)

/-- Method `CenterLayout.positionTier`: alternate children left/right of the parent
by index, stack siblings vertically centered on the parent's y, and recurse
with `distance + 50`.  The `tier` argument is threaded but unused, exactly as
in the source.  `fuel` bounds the recursion depth (the JS recursion would not
terminate on cyclic children data). -/
def centerPositionTier : Nat → String → NodeMap → PositionMap → Nat → ℚ → PositionMap
  | 0, _, _, positions, _, _ => positions
  | fuel + 1, parentId, nodes, positions, tier, distance =>
      match jsGet nodes parentId with
      | none => positions
      | some parent =>
          let children := (parent.children.map (jsGet nodes)).reduceOption
          match jsGet positions parentId with
          | none => positions
          | some parentPos =>
              if children.length = 0 then positions
              else
                children.enum.foldl
                  (fun pos ic =>
                    let index : Nat := ic.1
                    let child := ic.2
                    let isLeft := index % 2 = 0
                    let x := parentPos.x + (if isLeft then -distance else distance)
                    let y := parentPos.y + (index : ℚ) * 80 -
                      ((children.length - 1 : Nat) : ℚ) * 40
                    let pos1 := jsSet pos child.id
                      { x := x, y := y
                        width := calculateTextWidth child.text, height := 40 }
                    centerPositionTier fuel child.id nodes pos1 (tier + 1)
                      (distance + 50))
                  positions

/-- Method `CenterLayout.calculatePositions`: root at the fixed anchor `(800, 400)`,
then `positionTier(root.id, nodes, positions, 1, 250)`. -/
def centerCalculatePositions (nodes : NodeMap) : PositionMap :=
  match findRootNode nodes with
  | none => []
  | some rootNode =>
      let positions : PositionMap :=
        jsSet [] rootNode.id
          { x := 800, y := 400
            width := calculateTextWidth rootNode.text, height := 40 }
      centerPositionTier nodes.length rootNode.id nodes positions 1 250

/-- A JS `Map<string, number>`: the depth map of the top layout. -/
abbrev DepthMap := JsMap Nat

/-- Modelled from the spec: `buildDepthMap` is missing from the sources; the
spec says "Compute a depth (tier) for every node via a single traversal from
the root (root = depth 0, children = parent depth + 1)", skipping dangling
child ids; already-visited nodes are not revisited. -/
def buildDepthMapGo : Nat → NodeMap → String → Nat → DepthMap → DepthMap
  | 0, _, _, _, dm => dm
  | fuel + 1, nodes, nodeId, depth, dm =>
      match jsGet nodes nodeId with
      | none => dm
      | some node =>
          if (jsGet dm nodeId).isSome then dm
          else
            node.children.foldl
              (fun acc c => buildDepthMapGo fuel nodes c (depth + 1) acc)
              (jsSet dm nodeId depth)

/-- Modelled from the spec: depth traversal entry point, starting at the root
with depth 0. -/
def buildDepthMap (nodes : NodeMap) (rootId : String) : DepthMap :=
  buildDepthMapGo (nodes.length + 1) nodes rootId 0 []

/-- Method `TopLayout.positionTier`: collect the tier's nodes in map insertion
order, compute the total row width, and lay the row out left to right
starting at `800 - totalWidth / 2`. -/
def topPositionTier (nodes : NodeMap) (positions : PositionMap)
    (depthMap : DepthMap) (depth : Nat) : PositionMap :=
  let tierNodes := nodes.filter (fun kv => jsGet depthMap kv.2.id = some depth)
  if tierNodes.length = 0 then positions
  else
    let y : ℚ := 50 + (depth : ℚ) * 120
    let totalWidth : ℚ :=
      tierNodes.foldl (fun sum kv => sum + calculateTextWidth kv.2.text) 0 +
        ((tierNodes.length - 1 : Nat) : ℚ) * 60
    let xInit : ℚ := 800 - totalWidth / 2
    (tierNodes.foldl
      (fun (acc : PositionMap × ℚ) kv =>
        let width := calculateTextWidth kv.2.text
        (jsSet acc.1 kv.1
          { x := acc.2 + width / 2, y := y, width := width, height := 40 },
         acc.2 + width + 60))
      (positions, xInit)).1

/-- Method `TopLayout.calculatePositions`: root at `(800, 50)`, then one
`positionTier` pass per depth from 1 to the maximum depth. -/
def topCalculatePositions (nodes : NodeMap) : PositionMap :=
  match findRootNode nodes with
  | none => []
  | some rootNode =>
      let depthMap := buildDepthMap nodes rootNode.id
      let positions : PositionMap :=
        jsSet [] rootNode.id
          { x := 800, y := 50
            width := calculateTextWidth rootNode.text, height := 40 }
      let maxDepth := depthMap.foldl (fun m kv => max m kv.2) 0
      (List.range maxDepth).foldl
        (fun pos i => topPositionTier nodes pos depthMap (i + 1)) positions

/-- Modelled from the spec / the FinalPush `LayoutManager`: the dispatcher
`calculateLayout(nodes, layoutType)` imported by the simplified `MapCanvas`
is missing from the sources; it selects the engine by layout type. -/
def calculateLayout (nodes : NodeMap) (layoutType : LayoutType) : PositionMap :=
  match layoutType with
  | LayoutType.center => centerCalculatePositions nodes
  | LayoutType.top => topCalculatePositions nodes

/-!
  ## Text sanitization and the two commit-edit paths
-/

/-- JS `String.prototype.trim`: strip whitespace from both ends. -/
def jsTrim (s : String) : String :=
  String.mk (((s.data.dropWhile Char.isWhitespace).reverse.dropWhile
    Char.isWhitespace).reverse)

/-- The utility `sanitizeNodeText` from `validation.ts`: trim the text, delete
every angle bracket with `replace`, then `substring(0, 500)`. -/
def sanitizeNodeText (text : String) : String :=
  String.mk ((((jsTrim text).data.filter
    (fun c => ¬(c = '<' ∨ c = '>'))).take 500))

/-- Commit-edit of the simplified node component (`handleTextareaKeyDown`,
Enter without Shift): `updateNode(node.id, { text: editText })` — the raw
edit buffer, with no call to the sanitizer. -/
def commitEditSimplified (nodeId : String) (editText : String) (now : Nat)
    (s : MapState) : MapState :=
  updateNode nodeId { text := some editText } now s

/-- Commit-edit of the full `NodeComponent`: it stores
`sanitizeNodeText(editText)` (the older node model also clears an
`isEditing` flag, which the simplified model does not have). -/
def commitEditSanitized (nodeId : String) (editText : String) (now : Nat)
    (s : MapState) : MapState :=
  updateNode nodeId { text := some (sanitizeNodeText editText) } now s

/-!
  ## Derived predicates and amended-rule definitions
-/

/-- The selection invariant of the spec: the selection is `none` or an id
present in the node map. -/
def selectionValid (s : MapState) : Bool :=
  s.selectedId.all (fun sid => (jsGet s.nodes sid).isSome)

/-- Index of the first occurrence of `x` in `l`, or `none` when absent — the
spec-level counterpart of the code's `indexOf` sentinel convention. -/
def idxOfFirst : List String → String → Option Nat
  | [], _ => none
  | a :: rest, x =>
      if a = x then some 0
      else (idxOfFirst rest x).map (fun j => j + 1)

/-- The node object `createNode` builds, as a function of the generated id,
the text, the resolved parent reference and the timestamp. -/
def mkNode (newId text : String) (parent : Option String) (now : Nat) : Node :=
  { id := newId
    text := text
    children := []
    parent := parent
    metadata := { created := now, modified := now, collapsed := false } }

/-- The center-layout tier distance in the closed form of the claim:
`BASE_DISTANCE + (tier − 1) * TIER_INCREMENT` with base 250 and increment 50. -/
def centerTierDistance (tier : Nat) : ℚ :=
  250 + ((tier - 1 : Nat) : ℚ) * 50

/-- The amended center-layout rule, stated from the claim's wording with the
side-inheritance replaced by re-alternation: every sibling group, at every
tier, alternates sides by child index (even index left of the parent, odd
index right) at horizontal distance `centerTierDistance tier` from the
parent, with siblings stacked vertically centered on the parent's y at
spacing 80. -/
def centerAmendedTier : Nat → String → NodeMap → PositionMap → Nat → PositionMap
  | 0, _, _, positions, _ => positions
  | fuel + 1, parentId, nodes, positions, tier =>
      match jsGet nodes parentId with
      | none => positions
      | some parent =>
          let children := (parent.children.map (jsGet nodes)).reduceOption
          match jsGet positions parentId with
          | none => positions
          | some parentPos =>
              if children.length = 0 then positions
              else
                children.enum.foldl
                  (fun pos ic =>
                    let index : Nat := ic.1
                    let child := ic.2
                    let isLeft := index % 2 = 0
                    let x := parentPos.x +
                      (if isLeft then -centerTierDistance tier
                       else centerTierDistance tier)
                    let y := parentPos.y + (index : ℚ) * 80 -
                      ((children.length - 1 : Nat) : ℚ) * 40
                    let pos1 := jsSet pos child.id
                      { x := x, y := y
                        width := calculateTextWidth child.text, height := 40 }
                    centerAmendedTier fuel child.id nodes pos1 (tier + 1))
                  positions

/-- The amended center-layout engine: root at `(800, 400)`, children
positioned by the amended tier rule starting at tier 1. -/
def centerAmendedPositions (nodes : NodeMap) : PositionMap :=
  match findRootNode nodes with
  | none => []
  | some rootNode =>
      let positions : PositionMap :=
        jsSet [] rootNode.id
          { x := 800, y := 400
            width := calculateTextWidth rootNode.text, height := 40 }
      centerAmendedTier nodes.length rootNode.id nodes positions 1

/-!
  ## Concrete states used by witnesses and counterexamples
-/

/-- Three-node chain `A → B → C` with `B` selected. -/
def nodeA : Node :=
  { id := "A", text := "a", children := ["B"], parent := none
    metadata := { created := 0, modified := 0, collapsed := false } }

/-- Middle node of the chain. -/
def nodeB : Node :=
  { id := "B", text := "b", children := ["C"], parent := some "A"
    metadata := { created := 0, modified := 0, collapsed := false } }

/-- Leaf of the chain. -/
def nodeC : Node :=
  { id := "C", text := "c", children := [], parent := some "B"
    metadata := { created := 0, modified := 0, collapsed := false } }

/-- Chain state with the middle node selected. -/
def chainState : MapState :=
  { nodes := [("A", nodeA), ("B", nodeB), ("C", nodeC)]
    selectedId := some "B", layoutType := LayoutType.center }

/-- Root of the six-node tree: children `B`, `C`. -/
def sixA : Node :=
  { id := "A", text := "a", children := ["B", "C"], parent := none
    metadata := { created := 0, modified := 0, collapsed := false } }

/-- Child of the six-node root with children `D`, `E`. -/
def sixB : Node :=
  { id := "B", text := "b", children := ["D", "E"], parent := some "A"
    metadata := { created := 0, modified := 0, collapsed := false } }

/-- Child of the six-node root with child `F`. -/
def sixC : Node :=
  { id := "C", text := "c", children := ["F"], parent := some "A"
    metadata := { created := 0, modified := 0, collapsed := false } }

/-- Grandchild `D`. -/
def sixD : Node :=
  { id := "D", text := "d", children := [], parent := some "B"
    metadata := { created := 0, modified := 0, collapsed := false } }

/-- Grandchild `E`. -/
def sixE : Node :=
  { id := "E", text := "e", children := [], parent := some "B"
    metadata := { created := 0, modified := 0, collapsed := false } }

/-- Grandchild `F`. -/
def sixF : Node :=
  { id := "F", text := "f", children := [], parent := some "C"
    metadata := { created := 0, modified := 0, collapsed := false } }

/-- A root with five descendants, the root selected. -/
def sixState : MapState :=
  { nodes := [("A", sixA), ("B", sixB), ("C", sixC), ("D", sixD),
              ("E", sixE), ("F", sixF)]
    selectedId := some "A", layoutType := LayoutType.center }

/-- Root of the layout example tree. -/
def ctrRoot : Node :=
  { id := "R", text := "root", children := ["M"], parent := none
    metadata := { created := 0, modified := 0, collapsed := false } }

/-- Only tier-1 child of the layout example tree (index 0, left side). -/
def ctrMid : Node :=
  { id := "M", text := "m", children := ["G0", "G1"], parent := some "R"
    metadata := { created := 0, modified := 0, collapsed := false } }

/-- First tier-2 child. -/
def ctrG0 : Node :=
  { id := "G0", text := "g0", children := [], parent := some "M"
    metadata := { created := 0, modified := 0, collapsed := false } }

/-- Second tier-2 child. -/
def ctrG1 : Node :=
  { id := "G1", text := "g1", children := [], parent := some "M"
    metadata := { created := 0, modified := 0, collapsed := false } }

/-- The layout example tree. -/
def centerNodes : NodeMap :=
  [("R", ctrRoot), ("M", ctrMid), ("G0", ctrG0), ("G1", ctrG1)]

/-- Root `A` with the single child `B`. -/
def pairA : Node :=
  { id := "A", text := "a", children := ["B"], parent := none
    metadata := { created := 0, modified := 0, collapsed := false } }

/-- Only child `B` of `pairA`. -/
def pairB : Node :=
  { id := "B", text := "b", children := [], parent := some "A"
    metadata := { created := 0, modified := 0, collapsed := false } }

/-- Two-node state with the child selected. -/
def pairState : MapState :=
  { nodes := [("A", pairA), ("B", pairB)]
    selectedId := some "B", layoutType := LayoutType.center }

/-- A single root node. -/
def oneNode : Node :=
  { id := "A", text := "hello", children := [], parent := none
    metadata := { created := 0, modified := 0, collapsed := false } }

/-- Single-node state with the node selected. -/
def oneState : MapState :=
  { nodes := [("A", oneNode)], selectedId := some "A"
    layoutType := LayoutType.center }

/-!
  ## Helper lemmas about the JS map embedding
-/

/-- Reading after writing: the set key reads back the new value, others are
untouched. -/
theorem jsGet_jsSet {β : Type} (m : JsMap β) (k : String) (v : β)
    (k' : String) :
    jsGet (jsSet m k v) k' = if k' = k then some v else jsGet m k' := by
  induction m with
  | nil =>
      rcases eq_or_ne k' k with h | h
      · subst h; simp [jsSet, jsGet]
      · simp [jsSet, jsGet, h, Ne.symm h]
  | cons kv rest ih =>
      obtain ⟨k₀, v₀⟩ := kv
      rcases eq_or_ne k₀ k with h0 | h0
      · subst h0
        rcases eq_or_ne k' k₀ with h | h
        · subst h; simp [jsSet, jsGet]
        · simp [jsSet, jsGet, h, Ne.symm h]
      · rcases eq_or_ne k' k₀ with h | h
        · subst h
          have hk : k' ≠ k := fun hh => h0 (hh ▸ rfl)
          simp [jsSet, jsGet, Ne.symm h0, hk]
        · simp [jsSet, jsGet, h0, Ne.symm h, ih]

/-- Setting a key absent from the map appends the new entry at the end. -/
theorem jsSet_eq_append {β : Type} (m : JsMap β) (k : String) (v : β)
    (h : jsGet m k = none) : jsSet m k v = m ++ [(k, v)] := by
  induction m with
  | nil => simp [jsSet]
  | cons kv rest ih =>
      obtain ⟨k₀, v₀⟩ := kv
      by_cases h0 : k₀ = k
      · subst h0
        simp [jsGet] at h
      · simp [jsGet, h0] at h
        simp [jsSet, h0, ih h]

/-!
  ## C10 and C1
-/

/-- C10: `selectNode` performs no existence check — for any id whatsoever,
including ids absent from the node map, it sets the stored selection to
exactly that id and leaves the node map and layout mode untouched. -/
theorem selectNode_no_existence_check (s : MapState) (id : String) :
    (selectNode (some id) s).selectedId = some id ∧
    (selectNode (some id) s).nodes = s.nodes ∧
    (selectNode (some id) s).layoutType = s.layoutType :=
  ⟨rfl, rfl, rfl⟩

/-- C1: the layout engines are pure functions of the node map and mode
alone — two runs on equal inputs produce identical position maps, with no
dependence on prior layout results or any other state (neither engine takes
any other input). -/
theorem calculateLayout_deterministic (n₁ n₂ : NodeMap) (t : LayoutType)
    (h : n₁ = n₂) : calculateLayout n₁ t = calculateLayout n₂ t := by
  rw [h]

/-- Witness for C1: two runs of each engine on the concrete example tree
agree. -/
theorem calculateLayout_deterministic_witness :
    centerNodes = centerNodes ∧
    calculateLayout centerNodes LayoutType.center =
      calculateLayout centerNodes LayoutType.center ∧
    calculateLayout centerNodes LayoutType.top =
      calculateLayout centerNodes LayoutType.top :=
  ⟨rfl, calculateLayout_deterministic centerNodes centerNodes LayoutType.center rfl,
    calculateLayout_deterministic centerNodes centerNodes LayoutType.top rfl⟩

/-!
  ## C2 and C3: the delete handler
-/

/-- C2: deleting the middle node of the chain `A → B → C` removes only `B`
itself: the descendant `C` stays in the collection (now orphaned, its parent
pointing at the deleted id), the node count drops by 1 instead of the
subtree size 2, and `B` is removed from its former parent's children
array.  Each recursive `setState` of the handler rebuilds from the stale
captured map, so only the outermost deletion survives, contradicting the
handler's own "delete the selected node and all its descendants" comment. -/
theorem delete_leaves_descendants_in_map :
    (deleteNodeAndChildren "B" chainState).nodes =
      [("A", { nodeA with children := [] }), ("C", nodeC)] ∧
    jsGet (deleteNodeAndChildren "B" chainState).nodes "C" = some nodeC ∧
    (deleteNodeAndChildren "B" chainState).nodes.length = 2 ∧
    chainState.nodes.length = 3 := by
  refine ⟨?_, ?_, ?_, ?_⟩ <;> decide

/-- C3: deleting the root of a six-node tree is not a no-op — the root is
removed (5 of the 6 nodes remain), although the spec, the design document's
"Node selected (non-root)" precondition and the repository's own
state-management rules all require the root to be protected. -/
theorem delete_root_not_noop :
    (deleteNodeAndChildren "A" sixState).nodes.length = 5 ∧
    jsGet (deleteNodeAndChildren "A" sixState).nodes "A" = none ∧
    sixState.nodes.length = 6 := by
  refine ⟨?_, ?_, ?_⟩ <;> decide

/-!
  ## C4: the selection invariant
-/

/-- C4 (counterexample): one public operation from the initial state already
breaks "selection is none or present in the map" — `selectNode` performs no
existence check, so selecting an id absent from the (empty) map yields a
reachable state with a dangling selection. -/
theorem selectNode_breaks_selection_validity :
    selectionValid (selectNode (some "ghost") initialState) = false := by
  decide

/-- C4 (amended): `createNode`, `updateNode` and the delete handler preserve
the selection invariant from any state satisfying it (creation selects the
freshly inserted node, any deletion that removes a node clears the
selection), and `selectNode` preserves it only when the caller passes `none`
or an id present in the map — with an arbitrary id it can break it. -/
theorem store_ops_preserve_selection_validity (s : MapState)
    (h : selectionValid s = true) :
    (∀ newId now parentId text,
      selectionValid (createNode newId now parentId text s) = true) ∧
    (∀ id u now, selectionValid (updateNode id u now s) = true) ∧
    (∀ id, selectionValid (deleteNodeAndChildren id s) = true) ∧
    selectionValid (selectNode none s) = true ∧
    (∀ id, (jsGet s.nodes id).isSome = true →
      selectionValid (selectNode (some id) s) = true) := by
  refine ⟨?_, ?_, ?_, ?_, ?_⟩
  · intro newId now parentId text
    simp only [createNode, selectionValid]
    split
    · simp [jsGet_jsSet]
    · split
      · simp [jsGet_jsSet]
      · simp only [Option.all_some]
        rw [jsGet_jsSet]
        split <;> simp [jsGet_jsSet]
  · intro id u now
    simp only [updateNode]
    cases hid : jsGet s.nodes id with
    | none => exact h
    | some node =>
        simp only [selectionValid, Option.all] at h ⊢
        cases hsel : s.selectedId with
        | none => simp
        | some sid =>
            rw [hsel] at h
            simp only [Option.all_some] at h ⊢
            rw [jsGet_jsSet]
            split <;> simp [h]
  · intro id
    simp only [deleteNodeAndChildren]
    cases hid : jsGet s.nodes id with
    | none => exact h
    | some node => simp [selectionValid]
  · simp [selectNode, selectionValid]
  · intro id hid
    simpa [selectNode, selectionValid] using hid

/-- Witness for C4: the preservation theorem applied to the single-node state
for a delete and a create. -/
theorem store_ops_preserve_selection_validity_witness :
    selectionValid oneState = true ∧
    selectionValid (deleteNodeAndChildren "A" oneState) = true ∧
    selectionValid (createNode "n2" 1 "A" "New Node" oneState) = true :=
  ⟨by decide,
    (store_ops_preserve_selection_validity oneState (by decide)).2.2.1 "A",
    (store_ops_preserve_selection_validity oneState (by decide)).1 "n2" 1 "A"
      "New Node"⟩

/-!
  ## C5: createNode guards
-/

/-- C5 (counterexample): on the empty node collection, `createNode` does not
ignore a non-empty `parentId` — the created node carries `parent = some "p"`
(a dangling reference) instead of becoming a root with no parent. -/
theorem createNode_empty_map_not_root :
    (createNode "n1" 0 "p" "t" initialState).nodes =
      [("n1", mkNode "n1" "t" (some "p") 0)] ∧
    (mkNode "n1" "t" (some "p") 0).parent ≠ none := by
  refine ⟨?_, ?_⟩ <;> decide

/-- C5 (amended): `createNode` always inserts the new node and selects it,
with `parent` equal to `parentId` when non-empty and `none` when empty; a
parentId naming an existing node gets the new id appended to its children;
a non-empty parentId absent from the map still creates the node (with the
dangling parent reference) instead of being a no-op — the empty-tree and
existing-parent guards live in the keyboard caller, not the store. -/
theorem createNode_always_inserts (newId : String) (now : Nat)
    (parentId text : String) (s : MapState)
    (hfresh : jsGet s.nodes newId = none) (hne : parentId ≠ newId) :
    (createNode newId now parentId text s).selectedId = some newId ∧
    (createNode newId now parentId text s).layoutType = s.layoutType ∧
    (parentId = "" →
      (createNode newId now parentId text s).nodes =
        s.nodes ++ [(newId, mkNode newId text none now)]) ∧
    (parentId ≠ "" → jsGet s.nodes parentId = none →
      (createNode newId now parentId text s).nodes =
        s.nodes ++ [(newId, mkNode newId text (some parentId) now)]) ∧
    (∀ p, parentId ≠ "" → jsGet s.nodes parentId = some p →
      (createNode newId now parentId text s).nodes =
        jsSet (s.nodes ++ [(newId, mkNode newId text (some parentId) now)])
          parentId
          { p with
            children := p.children ++ [newId]
            metadata := { p.metadata with modified := now } }) := by
  refine ⟨rfl, rfl, ?_, ?_, ?_⟩
  · intro hp
    subst hp
    simp only [createNode, if_pos rfl]
    exact jsSet_eq_append s.nodes newId _ hfresh
  · intro hp habsent
    simp only [createNode, if_neg hp]
    rw [jsGet_jsSet, if_neg hne, habsent]
    exact jsSet_eq_append s.nodes newId _ hfresh
  · intro p hp hpresent
    simp only [createNode, if_neg hp]
    rw [jsGet_jsSet, if_neg hne, hpresent]
    rw [jsSet_eq_append s.nodes newId _ hfresh]
    rfl

/-- Witness for C5: creating on the empty collection with empty parentId
appends a root node. -/
theorem createNode_always_inserts_witness :
    jsGet initialState.nodes "w5" = none ∧ ("" : String) ≠ "w5" ∧
    (createNode "w5" 2 "" "hi" initialState).nodes =
      initialState.nodes ++ [("w5", mkNode "w5" "hi" none 2)] :=
  ⟨by decide, by decide,
    (createNode_always_inserts "w5" 2 "" "hi" initialState (by decide)
      (by decide)).2.2.1 rfl⟩

/-!
  ## C6: updateNode frame conditions
-/

/-- C6 (counterexample): `updateNode` strips only `id`, `children` and
`parent` from the updates — a caller passing a `metadata` object changes
`created` and `collapsed` through this path, not just the text and the
modified timestamp. -/
theorem updateNode_metadata_leak :
    jsGet (updateNode "A"
        { metadata := some { created := 999, modified := 0, collapsed := true } }
        7 oneState).nodes "A" =
      some { oneNode with
             metadata := { created := 999, modified := 7, collapsed := true } } ∧
    oneNode.metadata.collapsed = false ∧
    oneNode.metadata.created = 0 := by
  refine ⟨?_, ?_, ?_⟩ <;> decide

/-- C6 (amended): `updateNode` is a no-op for absent ids, never touches the
selection or layout mode, never changes any node's `id`, `parent` or
`children`, and rewrites the target node's `text` and `metadata` from the
updates (when present), always stamping `metadata.modified` with the call
time. -/
theorem updateNode_of_get_none (id : String) (u : NodeUpdates) (now : Nat)
    (s : MapState) (h : jsGet s.nodes id = none) :
    updateNode id u now s = s := by
  simp [updateNode, h]

theorem updateNode_of_get_some (id : String) (u : NodeUpdates) (now : Nat)
    (s : MapState) (node : Node) (h : jsGet s.nodes id = some node) :
    updateNode id u now s =
      { s with
        nodes := jsSet s.nodes id
          { node with
            text := u.text.getD node.text
            metadata := { u.metadata.getD node.metadata with modified := now } } } := by
  simp [updateNode, h]

theorem updateNode_frame_conditions (id : String) (u : NodeUpdates)
    (now : Nat) (s : MapState) :
    (jsGet s.nodes id = none → updateNode id u now s = s) ∧
    (updateNode id u now s).selectedId = s.selectedId ∧
    (updateNode id u now s).layoutType = s.layoutType ∧
    (∀ k n, jsGet s.nodes k = some n →
      ∃ n', jsGet (updateNode id u now s).nodes k = some n' ∧
        n'.id = n.id ∧ n'.parent = n.parent ∧ n'.children = n.children) ∧
    (∀ n, jsGet s.nodes id = some n →
      jsGet (updateNode id u now s).nodes id =
        some { n with
               text := u.text.getD n.text
               metadata :=
                 { u.metadata.getD n.metadata with modified := now } }) := by
  cases hid : jsGet s.nodes id with
  | none =>
      rw [updateNode_of_get_none id u now s hid]
      refine ⟨fun _ => rfl, rfl, rfl, ?_, ?_⟩
      · intro k n hk
        exact ⟨n, hk, rfl, rfl, rfl⟩
      · intro n hn
        exact absurd hn (by simp)
  | some node =>
      rw [updateNode_of_get_some id u now s node hid]
      refine ⟨?_, rfl, rfl, ?_, ?_⟩
      · intro hc
        exact absurd hc (by simp)
      · intro k n hk
        rw [jsGet_jsSet]
        by_cases hki : k = id
        · subst hki
          rw [hk] at hid
          obtain rfl : node = n := (Option.some.inj hid).symm
          exact ⟨_, if_pos rfl, rfl, rfl, rfl⟩
        · exact ⟨n, by rw [if_neg hki]; exact hk, rfl, rfl, rfl⟩
      · intro n hn
        obtain rfl : node = n := Option.some.inj hn
        rw [jsGet_jsSet, if_pos rfl]

/-- Witness for C6: renaming the single node only changes its text and
modified timestamp. -/
theorem updateNode_frame_conditions_witness :
    jsGet oneState.nodes "A" = some oneNode ∧
    jsGet (updateNode "A" { text := some "renamed" } 9 oneState).nodes "A" =
      some { oneNode with
             text := "renamed"
             metadata := { oneNode.metadata with modified := 9 } } :=
  ⟨by decide,
    (updateNode_frame_conditions "A" { text := some "renamed" } 9
      oneState).2.2.2.2 oneNode (by decide)⟩

/-!
  ## C9: commit-edit and sanitization
-/

/-- The sanitizer's output never contains an angle bracket and is capped at
500 characters. -/
theorem sanitizeNodeText_clean (t : String) :
    (∀ c ∈ (sanitizeNodeText t).data, c ≠ '<' ∧ c ≠ '>') ∧
    (sanitizeNodeText t).length ≤ 500 := by
  constructor
  · intro c hc
    simp only [sanitizeNodeText] at hc
    have hmem : c ∈ (jsTrim t).data.filter
        (fun c => decide ¬(c = '<' ∨ c = '>')) := List.mem_of_mem_take hc
    have hp := List.of_mem_filter hmem
    have := of_decide_eq_true hp
    exact ⟨fun h1 => this (Or.inl h1), fun h2 => this (Or.inr h2)⟩
  · show (String.mk _).data.length ≤ 500
    simp [List.length_take]

/-- C9 (counterexample): the simplified node component's commit path stores
the raw edit buffer — committing `"<b>hi</b>"` stores a text that still
contains an angle bracket, since `handleTextareaKeyDown` calls `updateNode`
with `editText` directly and never invokes the sanitizer. -/
theorem commit_simplified_keeps_brackets :
    jsGet (commitEditSimplified "A" "<b>hi</b>" 3 oneState).nodes "A" =
      some { oneNode with
             text := "<b>hi</b>"
             metadata := { oneNode.metadata with modified := 3 } } ∧
    '<' ∈ "<b>hi</b>".data := by
  refine ⟨?_, ?_⟩ <;> decide

/-- C9 (amended): the full `NodeComponent`'s commit path stores
`sanitizeNodeText(editText)`, whose result contains neither `<` nor `>` and
is truncated to at most 500 characters; the simplified node component's
commit path stores the raw buffer unsanitized. -/
theorem commit_sanitized_no_brackets (nodeId editText : String) (now : Nat)
    (s : MapState) (n : Node) (h : jsGet s.nodes nodeId = some n) :
    ∃ n', jsGet (commitEditSanitized nodeId editText now s).nodes nodeId =
        some n' ∧
      n'.text = sanitizeNodeText editText ∧
      (∀ c ∈ n'.text.data, c ≠ '<' ∧ c ≠ '>') ∧
      n'.text.length ≤ 500 := by
  simp only [commitEditSanitized]
  rw [updateNode_of_get_some nodeId _ now s n h]
  refine ⟨_, by rw [jsGet_jsSet, if_pos rfl], rfl, ?_, ?_⟩
  · exact (sanitizeNodeText_clean editText).1
  · exact (sanitizeNodeText_clean editText).2

/-- Witness for C9: the sanitizing commit on the single-node state with the
spec's example input. -/
theorem commit_sanitized_no_brackets_witness :
    jsGet oneState.nodes "A" = some oneNode ∧
    ∃ n', jsGet (commitEditSanitized "A" "<b>hi</b>" 9 oneState).nodes "A" =
        some n' ∧
      n'.text = sanitizeNodeText "<b>hi</b>" ∧
      (∀ c ∈ n'.text.data, c ≠ '<' ∧ c ≠ '>') ∧
      n'.text.length ≤ 500 :=
  ⟨by decide,
    commit_sanitized_no_brackets "A" "<b>hi</b>" 9 oneState oneNode (by decide)⟩

/-!
  ## C7: arrow-key navigation
-/

/-- Value of `indexOf` when the element is absent: the JS sentinel `-1`. -/
theorem jsIndexOf_of_idxOfFirst_none (l : List String) (x : String)
    (h : idxOfFirst l x = none) : jsIndexOf l x = -1 := by
  induction l with
  | nil => rfl
  | cons a rest ih =>
      by_cases ha : a = x
      · simp [idxOfFirst, ha] at h
      · simp only [idxOfFirst, if_neg ha] at h
        cases hr : idxOfFirst rest x with
        | none => simp [jsIndexOf, ha, ih hr]
        | some j => rw [hr] at h; simp at h

/-- Value of `indexOf` when the element is present: the first-occurrence index. -/
theorem jsIndexOf_of_idxOfFirst_some (l : List String) (x : String) (i : Nat)
    (h : idxOfFirst l x = some i) : jsIndexOf l x = i := by
  induction l generalizing i with
  | nil => simp [idxOfFirst] at h
  | cons a rest ih =>
      by_cases ha : a = x
      · simp only [idxOfFirst, if_pos ha] at h
        obtain rfl : (0 : Nat) = i := Option.some.inj h
        simp [jsIndexOf, ha]
      · simp only [idxOfFirst, if_neg ha] at h
        cases hr : idxOfFirst rest x with
        | none => rw [hr] at h; simp at h
        | some j =>
            rw [hr] at h
            obtain rfl : j + 1 = i := Option.some.inj (by simpa using h)
            have hj := ih j hr
            simp only [jsIndexOf, if_neg ha, hj]
            have : ((j : Int)) ≠ -1 := by omega
            rw [if_neg this]
            push_cast
            ring

/-- Reduction of `navigateToAdjacentNode` once the selection resolves to a
node: the handler computes the direction's target and selects it when
truthy. -/
theorem navigateToAdjacentNode_reduce (d : String) (s : MapState)
    (sid : String) (node : Node) (hsel : s.selectedId = some sid)
    (hne : sid ≠ "") (hnode : jsGet s.nodes sid = some node)
    (t : Option String)
    (htarget :
      (if d = "ArrowUp" then findNodeAbove s.nodes node
       else if d = "ArrowDown" then findNodeBelow s.nodes node
       else if d = "ArrowLeft" then findNodeLeft node
       else if d = "ArrowRight" then findNodeRight node
       else none) = t) :
    navigateToAdjacentNode d s =
      (if isTruthy t then selectNode t s else s) := by
  simp only [navigateToAdjacentNode, hsel, hnode, htarget]
  rw [if_pos (show isTruthy (some sid) = true by simp [isTruthy, hne])]

/-- C7 (counterexample): with root `A` and its only child `B` selected,
ArrowUp does not fall back to the parent — there is no previous sibling and
the selection stays on `B` rather than moving to `A`. -/
theorem navigateUp_no_parent_fallback :
    (navigateToAdjacentNode "ArrowUp" pairState).selectedId = some "B" ∧
    (some "B" : Option String) ≠ some "A" := by
  refine ⟨?_, ?_⟩ <;> decide

/-- C7 (amended): with a (truthily) selected node resolving in the map,
"left" moves to the parent id (when truthy), "right" to the first child,
"up" to the previous sibling in the parent's children order — with **no**
fallback to the parent when there is no previous sibling — and "down" to the
next sibling; in every case without a valid target the state is unchanged. -/
theorem navigation_amended (s : MapState) (sid : String) (node : Node)
    (hsel : s.selectedId = some sid) (hne : sid ≠ "")
    (hnode : jsGet s.nodes sid = some node) (hid : node.id = sid) :
    (navigateToAdjacentNode "ArrowLeft" s =
      (if isTruthy node.parent then { s with selectedId := node.parent }
       else s)) ∧
    (navigateToAdjacentNode "ArrowRight" s =
      (if isTruthy node.children.head? then
        { s with selectedId := node.children.head? } else s)) ∧
    (node.parent = none →
      navigateToAdjacentNode "ArrowUp" s = s ∧
      navigateToAdjacentNode "ArrowDown" s = s) ∧
    (∀ pid, node.parent = some pid → jsGet s.nodes pid = none →
      navigateToAdjacentNode "ArrowUp" s = s ∧
      navigateToAdjacentNode "ArrowDown" s = s) ∧
    (∀ pid pn i, node.parent = some pid → jsGet s.nodes pid = some pn →
      idxOfFirst pn.children sid = some i →
      (navigateToAdjacentNode "ArrowUp" s =
        (if 0 < i then
          (if isTruthy (pn.children.get? (i - 1)) then
            { s with selectedId := pn.children.get? (i - 1) } else s)
         else s)) ∧
      (navigateToAdjacentNode "ArrowDown" s =
        (if isTruthy (pn.children.get? (i + 1)) then
          { s with selectedId := pn.children.get? (i + 1) } else s))) := by
  refine ⟨?_, ?_, ?_, ?_, ?_⟩
  · rw [navigateToAdjacentNode_reduce "ArrowLeft" s sid node hsel hne hnode
      (findNodeLeft node) rfl]
    rfl
  · rw [navigateToAdjacentNode_reduce "ArrowRight" s sid node hsel hne hnode
      (findNodeRight node) rfl]
    rfl
  · intro hp
    have hup : findNodeAbove s.nodes node = none := by
      simp [findNodeAbove, hp]
    have hdown : findNodeBelow s.nodes node = none := by
      simp [findNodeBelow, hp]
    constructor
    · rw [navigateToAdjacentNode_reduce "ArrowUp" s sid node hsel hne hnode
        (findNodeAbove s.nodes node) rfl, hup]
      rfl
    · rw [navigateToAdjacentNode_reduce "ArrowDown" s sid node hsel hne hnode
        (findNodeBelow s.nodes node) rfl, hdown]
      rfl
  · intro pid hp hpn
    have hup : findNodeAbove s.nodes node = none := by
      simp [findNodeAbove, hp, hpn]
    have hdown : findNodeBelow s.nodes node = none := by
      simp [findNodeBelow, hp, hpn]
    constructor
    · rw [navigateToAdjacentNode_reduce "ArrowUp" s sid node hsel hne hnode
        (findNodeAbove s.nodes node) rfl, hup]
      rfl
    · rw [navigateToAdjacentNode_reduce "ArrowDown" s sid node hsel hne hnode
        (findNodeBelow s.nodes node) rfl, hdown]
      rfl
  · intro pid pn i hp hpn hidx
    have hjs : jsIndexOf pn.children node.id = (i : Int) := by
      rw [hid]
      exact jsIndexOf_of_idxOfFirst_some pn.children sid i hidx
    constructor
    · rw [navigateToAdjacentNode_reduce "ArrowUp" s sid node hsel hne hnode
        (findNodeAbove s.nodes node) rfl]
      have hbody : findNodeAbove s.nodes node =
          (if (i : Int) > 0 then jsAt pn.children ((i : Int) - 1) else none) := by
        simp only [findNodeAbove, hp, hpn, hjs]
      rw [hbody]
      by_cases hi : (i : Int) > 0
      · rw [if_pos hi, if_pos (show 0 < i by omega)]
        have h1 : ¬((i : Int) - 1 < 0) := by omega
        have h2 : ((i : Int) - 1).toNat = i - 1 := by omega
        simp only [jsAt, if_neg h1, h2]
        rfl
      · rw [if_neg hi, if_neg (show ¬(0 < i) by omega)]
        rfl
    · rw [navigateToAdjacentNode_reduce "ArrowDown" s sid node hsel hne hnode
        (findNodeBelow s.nodes node) rfl]
      have hbody : findNodeBelow s.nodes node =
          (if (i : Int) < (pn.children.length : Int) - 1 then
            jsAt pn.children ((i : Int) + 1) else none) := by
        simp only [findNodeBelow, hp, hpn, hjs]
      rw [hbody]
      by_cases hc : (i : Int) < (pn.children.length : Int) - 1
      · rw [if_pos hc]
        have h1 : ¬((i : Int) + 1 < 0) := by omega
        have h2 : ((i : Int) + 1).toNat = i + 1 := by omega
        simp only [jsAt, if_neg h1, h2]
        rfl
      · rw [if_neg hc]
        have hnone : pn.children.get? (i + 1) = none :=
          List.get?_eq_none.mpr (by omega)
        rw [hnone]
        rfl

/-- Witness for C7: ArrowLeft from the selected child of the two-node tree
moves the selection to the parent id. -/
theorem navigation_amended_witness :
    navigateToAdjacentNode "ArrowLeft" pairState =
      (if isTruthy pairB.parent then
        { pairState with selectedId := pairB.parent } else pairState) :=
  (navigation_amended pairState "B" pairB rfl (by decide) (by decide)
    (by decide)).1

/-!
  ## C8: the center layout's side rule
-/

/-- C8 (counterexample): in the example tree the tier-1 node `M` sits on the
left of the root (550 < 800), but its odd-indexed tier-2 child `G1` is
placed at x = 850, to the right of its parent — tier ≥ 2 nodes re-alternate
by child index instead of inheriting the parent's side. -/
theorem center_tier2_realternates :
    jsGet (centerCalculatePositions centerNodes) "R" =
      some { x := 800, y := 400, width := 100, height := 40 } ∧
    jsGet (centerCalculatePositions centerNodes) "M" =
      some { x := 550, y := 400, width := 100, height := 40 } ∧
    jsGet (centerCalculatePositions centerNodes) "G1" =
      some { x := 850, y := 440, width := 100, height := 40 } ∧
    (550 : ℚ) < 800 ∧ ¬((850 : ℚ) < 550) := by
  refine ⟨by decide, ?_, ?_, by norm_num, by norm_num⟩ <;>
    norm_num +decide [centerCalculatePositions, centerNodes, findRootNode,
      ctrRoot, ctrMid, ctrG0, ctrG1, centerPositionTier, jsGet, jsSet,
      calculateTextWidth, List.reduceOption, List.enum, List.enumFrom,
      List.find?, List.filterMap_cons, List.filterMap_nil, id_eq,
      Position.mk.injEq]

/-- The threaded `distance` of `positionTier` is the claim's closed form
`250 + (tier − 1) * 50` at every tier at least 1, so the code's recursion
matches the amended per-tier rule. -/
theorem centerPositionTier_eq_amended (fuel : Nat) :
    ∀ (parentId : String) (nodes : NodeMap) (positions : PositionMap)
      (tier : Nat) (distance : ℚ), 1 ≤ tier →
      distance = centerTierDistance tier →
      centerPositionTier fuel parentId nodes positions tier distance =
        centerAmendedTier fuel parentId nodes positions tier := by
  induction fuel with
  | zero => intro parentId nodes positions tier distance _ _; rfl
  | succ fuel ih =>
      intro parentId nodes positions tier distance htier hdist
      subst hdist
      have harg : centerTierDistance tier + 50 = centerTierDistance (tier + 1) := by
        simp only [centerTierDistance, Nat.add_sub_cancel]
        rw [Nat.cast_sub htier]
        push_cast
        ring
      simp only [centerPositionTier, centerAmendedTier]
      split
      · rfl
      · split
        · rfl
        · split
          · rfl
          · refine congrArg (fun f => List.foldl f positions _) ?_
            funext pos ic
            dsimp only
            rw [harg]
            exact ih _ nodes _ (tier + 1) (centerTierDistance (tier + 1))
              (by omega) rfl

/-- C8 (amended): the center layout places the root's children and **every
deeper sibling group** by the same re-alternating rule — even child index
left of the parent, odd index right, at horizontal distance
`BASE_DISTANCE + (tier − 1) * TIER_INCREMENT` (250 and 50) from the parent,
siblings stacked vertically centered on the parent's y at spacing 80; side
inheritance does not occur. -/
theorem center_layout_matches_amended_rule (nodes : NodeMap) :
    centerCalculatePositions nodes = centerAmendedPositions nodes := by
  simp only [centerCalculatePositions, centerAmendedPositions]
  split
  · rfl
  · exact centerPositionTier_eq_amended nodes.length _ nodes _ 1 250 le_rfl
      (by simp [centerTierDistance])

end MapItOut
